import Mathlib

/-!
Verification development for the damatronics checkers repository.

The development shallowly embeds the three controllers of the repository:

* `src/controllers/damas_controller/damas_controller.py` — the `TableroDamas`
  rules engine (dictionary-based board) and `DamasController` click handling;
* `src/controllers/supervisor_controller/supervisor_controller.py` — the
  `CheckersGame` supervisor (8x8 array board, flying kings, combo captures);
* `src/controllers/robot_driver/robot_driver.py` — the per-piece motion
  controller (anti-tunneling arrival check) and its message handling.

Conventions used throughout the embedding:

* Python dictionaries are modeled as association lists with unique keys
  (`lookupT`, `dictErase`, `dictInsert` mirror `in`/`[]`, `del`, assignment).
* Python code that can raise an exception (KeyError on a missing dictionary
  key, IndexError on a short list, TypeError on unpacking None, ValueError
  from float parsing) is modeled in `Option`, with `none` standing for the
  raised exception.
* Board coordinates are `Int` pairs; Python's `%` on a positive modulus
  agrees with `Int.emod`.  The supervisor's `self.board[y][x]` array is
  modeled as a total function `Int → Int → Option String`; all reasoning is
  restricted to in-range indices, where the two agree.
* Floating point quantities of the robot driver are modeled over `ℚ`; the
  driver logic only compares, scales and clamps the sensor-derived distance,
  so the branch structure is faithfully captured.
-/

/-! ## Part 1: embedding of TableroDamas (damas_controller.py) -/

/-- One entry of `estado_tablero`: the fields of the piece dictionary that
carry game state (`jugador`, `es_reina`); the Webots node handle and name are
scene plumbing and are not modeled. -/
structure Pieza where
  jugador : Nat
  es_reina : Bool
deriving DecidableEq, Repr

/-- A board cell `(fila, col)`. -/
abbrev Celda := Int × Int

/-- `estado_tablero`: a Python dict from cells to pieces, modeled as an
association list with unique keys. -/
abbrev Tablero := List (Celda × Pieza)

/-- One element of the list returned by `obtener_movimientos_validos`:
`((fila_dest, col_dest), es_captura, casilla_capturada)`. -/
abbrev Movimiento := Celda × Bool × Option Celda

/-- Dictionary lookup: `estado_tablero.get((fila, col))` /
`(fila, col) in estado_tablero`. -/
def lookupT : Tablero → Celda → Option Pieza
  | [], _ => none
  | e :: rest, c => if e.1 = c then some e.2 else lookupT rest c

/-- Dictionary deletion: `del estado_tablero[c]`. -/
def dictErase : Tablero → Celda → Tablero
  | [], _ => []
  | e :: rest, c => if e.1 = c then dictErase rest c else e :: dictErase rest c

/-- Dictionary assignment: `estado_tablero[c] = p` (replaces any previous
binding, preserving key uniqueness). -/
def dictInsert (t : Tablero) (c : Celda) (p : Pieza) : Tablero :=
  (c, p) :: dictErase t c

/-- `TableroDamas._es_casilla_negra`: a cell is playable when
`(fila + col) % 2 == 0`. -/
def es_casilla_negra (fila col : Int) : Bool := (fila + col) % 2 == 0

/-- The `direcciones` list chosen at the top of
`obtener_movimientos_validos`: all four diagonals for a queen, the two
forward diagonals for a plain piece (player 1 moves toward larger rows,
player 2 toward smaller rows). -/
def direccionesDe (pieza : Pieza) : List (Int × Int) :=
  if pieza.es_reina then [(-1, -1), (-1, 1), (1, -1), (1, 1)]
  else if pieza.jugador = 1 then [(1, -1), (1, 1)]
  else [(-1, -1), (-1, 1)]

/-- The body of the `for df, dc in direcciones` loop of
`obtener_movimientos_validos`: the candidate simple move one cell away
(suppressed when `bloquearSimples` holds, i.e. when the original code found
mandatory captures) followed by the candidate two-cell capture. -/
def movsDireccion (t : Tablero) (fila col : Int) (jugador : Nat)
    (bloquearSimples : Bool) (d : Int × Int) : List Movimiento :=
  let nf1 := fila + d.1
  let nc1 := col + d.2
  let simple : List Movimiento :=
    if 0 ≤ nf1 ∧ nf1 < 8 ∧ 0 ≤ nc1 ∧ nc1 < 8 ∧ es_casilla_negra nf1 nc1 = true ∧
       lookupT t (nf1, nc1) = none ∧ bloquearSimples = false
    then [((nf1, nc1), false, none)]
    else []
  let nf2 := fila + 2 * d.1
  let nc2 := col + 2 * d.2
  let captura : List Movimiento :=
    if 0 ≤ nf2 ∧ nf2 < 8 ∧ 0 ≤ nc2 ∧ nc2 < 8 ∧ es_casilla_negra nf2 nc2 = true then
      match lookupT t (nf1, nc1), lookupT t (nf2, nc2) with
      | some inter, none =>
          if inter.jugador ≠ jugador then [((nf2, nc2), true, some (nf1, nc1))] else []
      | _, _ => []
    else []
  simple ++ captura

/-- The direction loop plus the final mandatory-capture filter of
`obtener_movimientos_validos` (`if capturas: return capturas`). -/
def movimientosPieza (t : Tablero) (fila col : Int) (pieza : Pieza)
    (bloquearSimples : Bool) : List Movimiento :=
  let movimientos := (direccionesDe pieza).flatMap (movsDireccion t fila col pieza.jugador bloquearSimples)
  let capturas := movimientos.filter (fun m => m.2.1)
  if capturas.isEmpty then movimientos else capturas

/-- `obtener_movimientos_validos` with the team-wide capture blocking flag
already resolved.  `obtenerConBloqueo t turno f c false` is exactly the
`verificar_capturas_obligatorias=False` mode of the Python function (that
mode never consults `_hay_capturas_disponibles`). -/
def obtenerConBloqueo (t : Tablero) (turno : Nat) (fila col : Int)
    (bloquear : Bool) : List Movimiento :=
  match lookupT t (fila, col) with
  | none => []
  | some pieza =>
      if pieza.jugador ≠ turno then []
      else movimientosPieza t fila col pieza bloquear

/-- `TableroDamas._hay_capturas_disponibles`: scans every piece of `jugador`
and asks for its moves with `verificar_capturas_obligatorias=False`,
succeeding when any returned move is a capture. -/
def hay_capturas_disponibles (t : Tablero) (turno jugador : Nat) : Bool :=
  t.any (fun e => e.2.jugador == jugador &&
    (obtenerConBloqueo t turno e.1.1 e.1.2 false).any (fun m => m.2.1))

/-- `TableroDamas.obtener_movimientos_validos`.  When `verificar` is set the
simple moves are blocked exactly when `_hay_capturas_disponibles` holds for
the piece's player, as in the source. -/
def obtener_movimientos_validos (t : Tablero) (turno : Nat) (fila col : Int)
    (verificar : Bool) : List Movimiento :=
  obtenerConBloqueo t turno fila col
    (verificar && (match lookupT t (fila, col) with
                   | some pieza => hay_capturas_disponibles t turno pieza.jugador
                   | none => false))

/-- The fields of `TableroDamas` that carry game state. -/
structure TableroState where
  estado_tablero : Tablero
  turno_actual : Nat
  numero_turno : Nat
  pieza_seleccionada : Option Celda
  movimientos_validos : List Movimiento
  jugando_captura : Bool
  piezas_capturadas_j1 : Nat
  piezas_capturadas_j2 : Nat
deriving DecidableEq, Repr

/-- `TableroDamas.validar_movimiento`: first returned move whose destination
matches, as `(es_valido, es_captura, casilla_capturada)`. -/
def validar_movimiento (s : TableroState) (origen destino : Celda) :
    Bool × Bool × Option Celda :=
  match (obtener_movimientos_validos s.estado_tablero s.turno_actual
           origen.1 origen.2 true).find? (fun m => m.1 == destino) with
  | some m => (true, m.2.1, m.2.2)
  | none => (false, false, none)

/-- `TableroDamas._verificar_promocion`: player 1 promotes on row 7,
player 2 on row 0; already-promoted pieces are left alone. -/
def verificar_promocion (t : Tablero) (pos : Celda) : Tablero :=
  match lookupT t pos with
  | none => t
  | some pieza =>
      if pieza.es_reina then t
      else if (pieza.jugador = 1 ∧ pos.1 = 7) ∨ (pieza.jugador = 2 ∧ pos.1 = 0) then
        dictInsert t pos { pieza with es_reina := true }
      else t

/-- `TableroDamas.cambiar_turno`: flips the player, bumps the turn counter
and clears the selection. -/
def cambiar_turno (s : TableroState) : TableroState :=
  { s with turno_actual := if s.turno_actual = 1 then 2 else 1,
           numero_turno := s.numero_turno + 1,
           pieza_seleccionada := none,
           movimientos_validos := [] }

/-- `TableroDamas.realizar_movimiento`.  Returns `some (state, committed)`;
`none` models the KeyError that a missing origin key would raise (unreachable
when the move validated). -/
def realizar_movimiento (s : TableroState) (origen destino : Celda) :
    Option (TableroState × Bool) :=
  let v := validar_movimiento s origen destino
  if v.1 = true then
    match lookupT s.estado_tablero origen with
    | none => none
    | some pieza =>
        let t1 := dictInsert (dictErase s.estado_tablero origen) destino pieza
        let paso :=
          if v.2.1 = true ∧ v.2.2.isSome then
            match v.2.2 with
            | some cc =>
                match lookupT t1 cc with
                | some pieza_capturada =>
                    (dictErase t1 cc,
                     s.piezas_capturadas_j1 + (if pieza_capturada.jugador = 1 then 1 else 0),
                     s.piezas_capturadas_j2 + (if pieza_capturada.jugador = 1 then 0 else 1))
                | none => (t1, s.piezas_capturadas_j1, s.piezas_capturadas_j2)
            | none => (t1, s.piezas_capturadas_j1, s.piezas_capturadas_j2)
          else (t1, s.piezas_capturadas_j1, s.piezas_capturadas_j2)
        let t3 := verificar_promocion paso.1 destino
        if v.2.1 = true then
          let nuevas := obtener_movimientos_validos t3 s.turno_actual destino.1 destino.2 true
          let capturas_posibles := nuevas.filter (fun m => m.2.1)
          if capturas_posibles.isEmpty then
            some (cambiar_turno { s with estado_tablero := t3,
                                         jugando_captura := false,
                                         piezas_capturadas_j1 := paso.2.1,
                                         piezas_capturadas_j2 := paso.2.2 }, true)
          else
            some ({ s with estado_tablero := t3,
                           jugando_captura := true,
                           pieza_seleccionada := some destino,
                           movimientos_validos := capturas_posibles,
                           piezas_capturadas_j1 := paso.2.1,
                           piezas_capturadas_j2 := paso.2.2 }, true)
        else
          some (cambiar_turno { s with estado_tablero := t3,
                                       jugando_captura := false,
                                       piezas_capturadas_j1 := paso.2.1,
                                       piezas_capturadas_j2 := paso.2.2 }, true)
  else some (s, false)

/-- `DamasController.procesar_click_tile`, restricted to the game state (the
highlighting and the visual piece move touch only the scene).  The capture
combo branch `return`s only when a piece is selected and the click lands on
one of the current capture destinations; in every other case control falls
through to the generic selected-piece / selection blocks below, so an
off-destination click during a combo runs the deselection else-branch.
`none` models the exception paths. -/
def procesar_click_tile (s : TableroState) (fila col : Int) : Option TableroState :=
  if es_casilla_negra fila col = false then some s
  else if s.jugando_captura = true ∧ s.pieza_seleccionada.isSome = true ∧
          (fila, col) ∈ s.movimientos_validos.map (fun m => m.1) then
    match s.pieza_seleccionada with
    | some sel => (realizar_movimiento s sel (fila, col)).map (fun r => r.1)
    | none => some s
  else if s.pieza_seleccionada.isSome = true then
    match s.pieza_seleccionada with
    | some sel =>
        if (fila, col) ∈ s.movimientos_validos.map (fun m => m.1) then
          (realizar_movimiento s sel (fila, col)).map (fun r => r.1)
        else some { s with pieza_seleccionada := none, movimientos_validos := [] }
    | none => some s
  else
    match lookupT s.estado_tablero (fila, col) with
    | some pieza =>
        if pieza.jugador = s.turno_actual then
          some { s with pieza_seleccionada := some (fila, col),
                        movimientos_validos :=
                          obtener_movimientos_validos s.estado_tablero s.turno_actual fila col true }
        else some s
    | none => some s

/-- `TableroDamas.verificar_fin_juego`: `(juego_terminado, ganador)`. -/
def verificar_fin_juego (s : TableroState) : Bool × Option Nat :=
  if s.estado_tablero.isEmpty then (false, none)
  else
    let piezas_j1 := (s.estado_tablero.filter (fun e => e.2.jugador = 1)).length
    let piezas_j2 := (s.estado_tablero.filter (fun e => e.2.jugador = 2)).length
    if piezas_j1 = 0 then (true, some 2)
    else if piezas_j2 = 0 then (true, some 1)
    else
      let movimientos_j1 := s.estado_tablero.flatMap (fun e =>
        if e.2.jugador = 1 then
          obtener_movimientos_validos s.estado_tablero s.turno_actual e.1.1 e.1.2 true
        else [])
      let movimientos_j2 := s.estado_tablero.flatMap (fun e =>
        if e.2.jugador = 1 then []
        else obtener_movimientos_validos s.estado_tablero s.turno_actual e.1.1 e.1.2 true)
      if s.turno_actual = 1 ∧ movimientos_j1.isEmpty then (true, some 2)
      else if s.turno_actual = 2 ∧ movimientos_j2.isEmpty then (true, some 1)
      else (false, none)

/-! ## Part 2: embedding of CheckersGame (supervisor_controller.py) -/

/-- The logical fields of one entry of `self.robots` (the node handle and
the transform fields are scene plumbing). -/
structure RobotInfo where
  team : String
  is_king : Bool
  alive : Bool
deriving DecidableEq, Repr

/-- The game-state fields of `CheckersGame`.  `board y x` models
`self.board[y][x]`; the claims only exercise in-range indices, where the
total function agrees with the Python list of lists. -/
structure SupState where
  board : Int → Int → Option String
  robots : String → Option RobotInfo
  current_team : String
  selected_piece : Option String
  selected_grid : Option (Int × Int)
  waiting_for_robot : Bool
  moving_robot_name : Option String
  moving_robot_target : Option (Int × Int)
  forced_piece : Option String

/-- The sign convention of `validate_move`:
`direction = 1 if diff > 0 else -1`. -/
def pyDir (z : Int) : Int := if 0 < z then 1 else -1

/-- Outcome of the flying-king path scan inside `validate_move`:
`err` models the KeyError on `self.robots[found_piece]`, `blocked` the
`return False, None` exits, `ok v` falling out of the loop with `victim = v`. -/
inductive ScanResult where
  | err : ScanResult
  | blocked : ScanResult
  | ok : Option String → ScanResult
deriving DecidableEq, Repr

/-- The cells strictly between origin and destination, in scan order, as
`(check_y, check_x)` pairs: `i` ranges over `range(1, steps)`. -/
def betweenPath (oy ox diry dirx : Int) (steps : Nat) : List (Int × Int) :=
  (List.range (steps - 1)).map
    (fun (i : Nat) => (oy + ((i : Int) + 1) * diry, ox + ((i : Int) + 1) * dirx))

/-- The `for i in range(1, steps)` loop of `validate_move`'s flying-king
branch, with the current `victim` threaded through. -/
def kingScan (s : SupState) (team : String) : List (Int × Int) → Option String → ScanResult
  | [], victim => ScanResult.ok victim
  | c :: rest, victim =>
      match s.board c.1 c.2 with
      | none => kingScan s team rest victim
      | some found =>
          match victim with
          | some _ => ScanResult.blocked
          | none =>
              match s.robots found with
              | none => ScanResult.err
              | some fi =>
                  if fi.team ≠ team then kingScan s team rest (some found)
                  else ScanResult.blocked

/-- `CheckersGame.validate_move`.  `origin`/`destination` are `(x, y)` grid
pairs as in the source; the result is `some (is_valid, captured_piece)`,
with `none` modeling the KeyError paths. -/
def validate_move (s : SupState) (origin destination : Int × Int) :
    Option (Bool × Option String) :=
  let ox := origin.1
  let oy := origin.2
  let dx := destination.1
  let dy := destination.2
  if (s.board dy dx).isSome = true then some (false, none)
  else
    match s.board oy ox with
    | none => none
    | some piece_name =>
        match s.robots piece_name with
        | none => none
        | some info =>
            let diff_x := dx - ox
            let diff_y := dy - oy
            if diff_x.natAbs ≠ diff_y.natAbs then some (false, none)
            else
              let direction_x := pyDir diff_x
              let direction_y := pyDir diff_y
              if info.is_king = false then
                if diff_x.natAbs = 1 then
                  if s.forced_piece ≠ none then some (false, none)
                  else if info.team = "WHITE" ∧ diff_y < 0 then some (false, none)
                  else if info.team = "BLACK" ∧ 0 < diff_y then some (false, none)
                  else some (true, none)
                else if diff_x.natAbs = 2 then
                  match s.board (oy + direction_y) (ox + direction_x) with
                  | some victim =>
                      match s.robots victim with
                      | none => none
                      | some vinfo =>
                          if vinfo.team ≠ info.team then some (true, some victim)
                          else some (false, none)
                  | none => some (false, none)
                else some (false, none)
              else
                match kingScan s info.team
                        (betweenPath oy ox direction_y direction_x diff_x.natAbs) none with
                | ScanResult.err => none
                | ScanResult.blocked => some (false, none)
                | ScanResult.ok (some victim) => some (true, some victim)
                | ScanResult.ok none =>
                    if s.forced_piece ≠ none then some (false, none)
                    else some (true, none)

/-- A loop that may crash (`none`), find a hit (`some true`) or exhaust its
list (`some false`); used for the direction loops of `can_capture_more`. -/
def anyCrash (f : α → Option Bool) : List α → Option Bool
  | [] => some false
  | a :: rest =>
      match f a with
      | none => none
      | some true => some true
      | some false => anyCrash f rest

/-- The `for dist in range(2, 8)` inner loop of `can_capture_more`'s king
branch; an out-of-bounds destination breaks out of the loop. -/
def kingDistScan (s : SupState) (cx cy dirx diry : Int) : List Int → Option Bool
  | [] => some false
  | dist :: rest =>
      let dest_x := cx + dirx * dist
      let dest_y := cy + diry * dist
      if 0 ≤ dest_x ∧ dest_x < 8 ∧ 0 ≤ dest_y ∧ dest_y < 8 then
        match validate_move s (cx, cy) (dest_x, dest_y) with
        | none => none
        | some r =>
            if r.1 = true ∧ r.2.isSome = true then some true
            else kingDistScan s cx cy dirx diry rest
      else some false

/-- `CheckersGame.can_capture_more`. -/
def can_capture_more (s : SupState) (piece_name : String) (cx cy : Int) :
    Option Bool :=
  match s.robots piece_name with
  | none => none
  | some info =>
      let dirs : List (Int × Int) := [(-1, -1), (-1, 1), (1, -1), (1, 1)]
      if info.is_king = false then
        anyCrash (fun d =>
          let dest_x := cx + d.1 * 2
          let dest_y := cy + d.2 * 2
          if 0 ≤ dest_x ∧ dest_x < 8 ∧ 0 ≤ dest_y ∧ dest_y < 8 then
            match validate_move s (cx, cy) (dest_x, dest_y) with
            | none => none
            | some r => some r.1
          else some false) dirs
      else
        anyCrash (fun d => kingDistScan s cx cy d.1 d.2 [2, 3, 4, 5, 6, 7]) dirs

/-- `CheckersGame.capture_piece`: marks the robot dead and clears every
board cell holding its name (the launch animation is physics-only). -/
def capture_piece (s : SupState) (piece_name : String) : Option SupState :=
  match s.robots piece_name with
  | none => none
  | some info =>
      some { s with
        robots := fun nm =>
          if nm = piece_name then some { info with alive := false } else s.robots nm,
        board := fun y x => if s.board y x = some piece_name then none else s.board y x }

/-- The pair of board assignments of `execute_move`
(`board[dy][dx] = piece` followed by `board[oy][ox] = None`; the later write
wins when the two cells coincide). -/
def boardAfterMove (b : Int → Int → Option String) (ox oy dx dy : Int)
    (piece : String) : Int → Int → Option String :=
  fun y x =>
    if y = oy ∧ x = ox then none
    else if y = dy ∧ x = dx then some piece
    else b y x

/-- `CheckersGame.execute_move`, restricted to the game state (the emitted
`MOVE` message only carries the world coordinates of `destination`). -/
def execute_move (s : SupState) (origin destination : Int × Int)
    (captured_piece : Option String) : Option SupState :=
  match s.board origin.2 origin.1 with
  | none => none
  | some piece =>
      match s.robots piece with
      | none => none
      | some robot_info =>
          match (match captured_piece with
                 | some cp => capture_piece s cp
                 | none => some s) with
          | none => none
          | some s1 =>
              let s2 : SupState :=
                { s1 with
            board := boardAfterMove s1.board origin.1 origin.2 destination.1 destination.2 piece,
                  waiting_for_robot := true,
                  moving_robot_name := some piece,
                  moving_robot_target := some destination }
              if captured_piece.isSome = true ∧
                 ¬ (robot_info.is_king = false ∧
                    ((robot_info.team = "WHITE" ∧ destination.2 = 7) ∨
                     (robot_info.team = "BLACK" ∧ destination.2 = 0))) then
                match can_capture_more s2 piece destination.1 destination.2 with
                | none => none
                | some b =>
                    some { s2 with forced_piece := if b then some piece else none,
                                   selected_piece := none }
              else
                some { s2 with forced_piece := none, selected_piece := none }

/-- The first `x` (if any) found in row `y` by the selection scan of
`handle_robot_click`. -/
def rowFirstHit (s : SupState) (name : String) (y : Nat) : Option (Int × Int) :=
  ((List.range 8).find? (fun x => s.board (y : Int) (x : Int) == some name)).map
    (fun x => ((x : Int), (y : Int)))

/-- The double loop of `handle_robot_click`: the inner `break` only leaves
the `x` loop, so the final `selected_grid` comes from the last row holding
the name. -/
def findGrid (s : SupState) (name : String) : Option (Int × Int) :=
  ((List.range 8).filterMap (rowFirstHit s name)).getLast?

/-- `CheckersGame.handle_robot_click`. -/
def handle_robot_click (s : SupState) (robot_name : String) : Option SupState :=
  if s.waiting_for_robot = true then some s
  else if s.forced_piece ≠ none ∧ s.forced_piece ≠ some robot_name then some s
  else
    match s.robots robot_name with
    | none => none
    | some info =>
        if info.team ≠ s.current_team then some s
        else if info.alive = false then some s
        else
          some { s with selected_piece := some robot_name,
                        selected_grid := (findGrid s robot_name).elim s.selected_grid some }

/-- `CheckersGame.handle_tile_click`. -/
def handle_tile_click (s : SupState) (x y : Int) : Option SupState :=
  if s.waiting_for_robot = true ∨ s.selected_piece = none then some s
  else
    match s.selected_grid with
    | none => none
    | some og =>
        match validate_move s og (x, y) with
        | none => none
        | some r =>
            if r.1 = true then execute_move s og (x, y) r.2
            else if s.forced_piece = none then some { s with selected_piece := none }
            else some s

/-- Python `str.split()` on spaces: splits on runs of separators and drops
empty fragments. -/
def splitSpaces : List Char → List Char → List String
  | [], acc => if acc = [] then [] else [String.mk acc.reverse]
  | c :: rest, acc =>
      if c = ' ' then
        (if acc = [] then splitSpaces rest [] else String.mk acc.reverse :: splitSpaces rest [])
      else splitSpaces rest (c :: acc)

/-- `msg.split()` for the protocol messages (which only use spaces). -/
def pySplit (s : String) : List String := splitSpaces s.data []

/-- `a.startswith(b)` over the character lists. -/
def isPrefixChars : List Char → List Char → Bool
  | [], _ => true
  | _ :: _, [] => false
  | a :: as, b :: bs => a = b && isPrefixChars as bs

/-- Python `msg.startswith(name)`. -/
def pyStartsWith (msg name : String) : Bool := isPrefixChars name.data msg.data

/-- Processing of one incoming message by
`CheckersGame.process_robot_messages`: the `parts[0]`/`parts[1]` accesses,
the `ARRIVED`-from-the-moving-robot guard, the snap (scene-only), the
promotion check and the combo/turn-switch branch.  `none` models the
IndexError on short messages and the KeyError/TypeError paths. -/
def process_robot_message (s : SupState) (msg : String) : Option SupState :=
  match pySplit msg with
  | sender :: command :: _ =>
      if command = "ARRIVED" ∧ s.moving_robot_name = some sender then
        match s.moving_robot_target with
        | none => none
        | some td =>
            match s.robots sender with
            | none => none
            | some info =>
                let s1 :=
                  if info.is_king = false ∧
                     ((info.team = "WHITE" ∧ td.2 = 7) ∨ (info.team = "BLACK" ∧ td.2 = 0)) then
                    { s with robots := fun nm =>
                        if nm = sender then some { info with is_king := true } else s.robots nm }
                  else s
                if s.forced_piece ≠ none then
                  some { s1 with waiting_for_robot := false,
                                 selected_piece := s.forced_piece }
                else
                  some { s1 with moving_robot_name := none,
                                 moving_robot_target := none,
                                 waiting_for_robot := false,
                                 current_team :=
                                   if s.current_team = "WHITE" then "BLACK" else "WHITE" }
      else some s
  | _ => none

/-! ## Part 3: embedding of CheckerRobotDriver (robot_driver.py) -/

/-- The control-state fields of `CheckerRobotDriver`. -/
structure DriverState where
  name : String
  state : String
  target_x : ℚ
  target_y : ℚ
deriving DecidableEq, Repr

/-- `self.TOLERANCE_DIST = 0.06`. -/
def TOLERANCE_DIST : ℚ := 6 / 100

/-- `self.KP_MOVE = 3.0`. -/
def KP_MOVE : ℚ := 3

/-- `self.MAX_SPEED_CRUISE = 6.0`. -/
def MAX_SPEED_CRUISE : ℚ := 6

/-- `self.APPROACH_SPEED = 0.5`. -/
def APPROACH_SPEED : ℚ := 1 / 2

/-- One iteration of the `MOVING` branch of `CheckerRobotDriver.run`, as a
function of the sensor-derived distance to target and normalized bearing
error.  Returns the next state, the `(left, right)` wheel velocities and
the emitted messages. -/
def movingStep (s : DriverState) (dist bearingErr : ℚ) :
    DriverState × (ℚ × ℚ) × List String :=
  if dist < TOLERANCE_DIST then
    ({ s with state := "IDLE" }, (0, 0), [s.name ++ " ARRIVED"])
  else
    let error_angle := if 20 / 100 ≤ dist then bearingErr else 0
    let correction := error_angle * KP_MOVE
    let base_speed :=
      if 40 / 100 < dist then MAX_SPEED_CRUISE
      else min (max APPROACH_SPEED (dist * 5)) 2
    (s, (base_speed - correction, base_speed + correction), [])

/-- `float(str)` for the decimal literals the supervisor format string
produces (optional sign, digits, optional fraction); `none` models the
ValueError on anything else. -/
def digitsVal : List Char → Option Nat → Option Nat
  | [], acc => acc
  | c :: rest, acc =>
      if c.isDigit then
        digitsVal rest (some ((acc.getD 0) * 10 + (c.toNat - 48)))
      else none

/-- Parse a decimal literal into `ℚ`. -/
def parseDecimal (str : String) : Option ℚ :=
  let core : List Char → Option ℚ := fun l =>
    match l.splitOn '.' with
    | [ip] => (digitsVal ip none).map (fun n => (n : ℚ))
    | [ip, fp] =>
        match digitsVal (ip ++ fp) none with
        | some n => some ((n : ℚ) / ((10 : ℚ) ^ fp.length))
        | none => none
    | _ => none
  match str.data with
  | '-' :: rest => (core rest).map (fun q => -q)
  | l => core l

/-- `CheckerRobotDriver.process_messages` on one incoming message: the
address check is `msg.startswith(self.name)`; `MOVE`/`DIE` store a new
target and enter `ROTATING`; `LOCK` only drives the connector; anything
else falls through.  `none` models the IndexError/ValueError paths. -/
def driver_process_message (s : DriverState) (msg : String) : Option DriverState :=
  if pyStartsWith msg s.name = false then some s
  else
    match pySplit msg with
    | _ :: cmd :: rest =>
        if cmd = "MOVE" ∨ cmd = "DIE" then
          match rest with
          | xs :: ys :: _ =>
              match parseDecimal xs, parseDecimal ys with
              | some x, some y =>
                  some { s with target_x := x, target_y := y, state := "ROTATING" }
              | _, _ => none
          | _ => none
        else some s
    | _ => none

/-! ## Part 4: concrete states and auxiliary definitions used by the claims -/

/-- Concrete instance of the C10 theorem on the empty state. -/
def tableroVacio : TableroState := ⟨[], 1, 1, none, [], false, 0, 0⟩

/-- Board for the witness of the amended C1: a white man at `(2,2)` can jump
the black man at `(3,3)`, and a second white man at `(2,6)` has only simple
moves available. -/
def tableroC1 : Tablero := [((2, 2), ⟨1, false⟩), ((3, 3), ⟨2, false⟩), ((2, 6), ⟨1, false⟩)]

/-- Supervisor state refuting C1 as stated: WHITE to move, `W_01` at grid
`(2,2)` has a capture over `B_01` at `(3,3)`, yet the simple move of `W_02`
from `(6,2)` to `(7,3)` still validates. -/
def supC1 : SupState :=
  ⟨fun y x =>
      if y = 2 ∧ x = 2 then some "W_01"
      else if y = 3 ∧ x = 3 then some "B_01"
      else if y = 2 ∧ x = 6 then some "W_02" else none,
   fun n =>
      if n = "W_01" then some ⟨"WHITE", false, true⟩
      else if n = "W_02" then some ⟨"WHITE", false, true⟩
      else if n = "B_01" then some ⟨"BLACK", false, true⟩ else none,
   "WHITE", none, none, false, none, none, none⟩

/-- The row direction of a plain piece: player 1 advances toward larger
rows, any other player toward smaller rows. -/
def direccionJugador (j : Nat) : Int := if j = 1 then 1 else -1

/-- Board for the witness of the amended C5: a lone white man at `(2,2)`. -/
def tableroC5 : Tablero := [((2, 2), ⟨1, false⟩)]

/-- Supervisor state refuting C5 as stated: the white man `W_01` at grid
`(1,5)` jumps backward (row decreasing for WHITE) over `B_01` at `(2,4)`
to the empty cell `(3,3)`. -/
def supC5 : SupState :=
  ⟨fun y x =>
      if y = 5 ∧ x = 1 then some "W_01"
      else if y = 4 ∧ x = 2 then some "B_01" else none,
   fun n =>
      if n = "W_01" then some ⟨"WHITE", false, true⟩
      else if n = "B_01" then some ⟨"BLACK", false, true⟩ else none,
   "WHITE", none, none, false, none, none, none⟩

/-- Supervisor state for the C2 witness: the white king `W_01` at grid
`(1,1)`, the black man `B_01` at `(4,4)`, all other cells empty. -/
def supC2 : SupState :=
  ⟨fun y x =>
      if y = 1 ∧ x = 1 then some "W_01"
      else if y = 4 ∧ x = 4 then some "B_01" else none,
   fun n =>
      if n = "W_01" then some ⟨"WHITE", true, true⟩
      else if n = "B_01" then some ⟨"BLACK", false, true⟩ else none,
   "WHITE", none, none, false, none, none, none⟩

/-- Board refuting C2 as stated against the `TableroDamas` engine: the white
queen at `(0,0)`, exactly one opposing piece at `(1,1)` on the diagonal to
the empty playable cell `(3,3)`. -/
def tableroC2 : Tablero := [((0, 0), ⟨1, true⟩), ((1, 1), ⟨2, false⟩)]

/-- The corresponding `TableroDamas` state. -/
def estadoC2 : TableroState := ⟨tableroC2, 1, 1, none, [], false, 0, 0⟩

/-- State for the C8 witness: a lone black piece, white to move. -/
def tableroC8 : TableroState := ⟨[((0, 0), ⟨2, false⟩)], 1, 1, none, [], false, 0, 0⟩

/-- Supervisor state for the C9 counterexample: a move of `W_01` is in
flight. -/
def supC9 : SupState :=
  ⟨fun _ _ => none, fun _ => none, "WHITE", none, none, true, some "W_01", some (4, 7), none⟩

/-- Driver state for the C9 witness. -/
def driverC9 : DriverState := ⟨"W_01", "IDLE", 0, 0⟩

/-- Supervisor state for the C3 witness: the white man `W_01` at grid
`(2,5)` can capture `B_01` at `(3,6)` and land on the promotion rank
`y = 7` at `(4,7)`. -/
def supC3 : SupState :=
  ⟨fun y x =>
      if y = 5 ∧ x = 2 then some "W_01"
      else if y = 6 ∧ x = 3 then some "B_01" else none,
   fun n =>
      if n = "W_01" then some ⟨"WHITE", false, true⟩
      else if n = "B_01" then some ⟨"BLACK", false, true⟩ else none,
   "WHITE", some "W_01", some (2, 5), false, none, none, none⟩

/-- Board refuting C3 against `TableroDamas`: the white man at `(5,1)`
captures `(6,2)` and lands on the promotion row at `(7,3)`; the freshly
crowned queen can then capture `(6,4)`. -/
def tableroC3 : Tablero :=
  [((5, 1), ⟨1, false⟩), ((6, 2), ⟨2, false⟩), ((6, 4), ⟨2, false⟩)]

/-- The corresponding `TableroDamas` state. -/
def estadoC3 : TableroState := ⟨tableroC3, 1, 1, none, [], false, 0, 0⟩

/-- Supervisor state for the C4 witness: a combo is in progress with `W_01`
forced; `W_02` is another live white piece. -/
def supC4 : SupState :=
  ⟨fun y x =>
      if y = 2 ∧ x = 2 then some "W_01"
      else if y = 2 ∧ x = 6 then some "W_02" else none,
   fun n =>
      if n = "W_01" then some ⟨"WHITE", false, true⟩
      else if n = "W_02" then some ⟨"WHITE", false, true⟩ else none,
   "WHITE", some "W_01", some (2, 2), false, none, none, some "W_01"⟩

/-- Board refuting C4 against `DamasController`: a capture combo of the
white man at `(4,4)` is in progress (its mandatory capture of `(5,5)` lands
on `(6,6)`); `(2,0)` holds a second white man that can capture `(3,1)`,
landing on the empty cell `(4,2)`. -/
def tableroC4d : Tablero :=
  [((4, 4), ⟨1, false⟩), ((5, 5), ⟨2, false⟩), ((2, 0), ⟨1, false⟩), ((3, 1), ⟨2, false⟩)]

/-- The corresponding mid-combo `TableroDamas` state: `(4,4)` is selected
and `realizar_movimiento` has stored its pending capture moves. -/
def estadoC4d : TableroState :=
  ⟨tableroC4d, 1, 1, some (4, 4), [((6, 6), true, some (5, 5))], true, 0, 0⟩

/-- Supervisor state refuting C8 as stated: `B_01` at grid `(3,3)` is the
only BLACK robot, and the selected white man `W_01` at `(2,2)` is about to
capture it by jumping to `(4,4)`. -/
def supC8x : SupState :=
  ⟨fun y x =>
      if y = 2 ∧ x = 2 then some "W_01"
      else if y = 3 ∧ x = 3 then some "B_01" else none,
   fun n =>
      if n = "W_01" then some ⟨"WHITE", false, true⟩
      else if n = "B_01" then some ⟨"BLACK", false, true⟩ else none,
   "WHITE", some "W_01", some (2, 2), false, none, none, none⟩

/-- The board/robot consistency invariant of the supervisor: every board
cell names an alive robot, and every alive robot occupies exactly one board
cell. -/
def BoardInv (s : SupState) : Prop :=
  (∀ y x p, s.board y x = some p → ∃ i, s.robots p = some i ∧ i.alive = true) ∧
  (∀ p i, s.robots p = some i → i.alive = true →
    ∃! c : Int × Int, s.board c.1 c.2 = some p)

/-- The invariant read through the optional result of an operation. -/
def BoardInvOpt (o : Option SupState) : Prop := ∀ t, o = some t → BoardInv t

/-- Supervisor state for the C6 witness: `W_01` at grid `(2,2)`, `B_01` at
`(3,3)`. -/
def supC6 : SupState :=
  ⟨fun y x =>
      if y = 2 ∧ x = 2 then some "W_01"
      else if y = 3 ∧ x = 3 then some "B_01" else none,
   fun n =>
      if n = "W_01" then some ⟨"WHITE", false, true⟩
      else if n = "B_01" then some ⟨"BLACK", false, true⟩ else none,
   "WHITE", some "W_01", some (2, 2), false, none, none, none⟩

/-! ## Part 5: helper lemmas and claims -/

/-- Every move produced while `bloquearSimples` is set is a capture: the
simple-move branch of the direction loop is disabled. -/
lemma movsDireccion_bloqueado {t : Tablero} {fila col : Int} {j : Nat}
    {d : Int × Int} {m : Movimiento}
    (hm : m ∈ movsDireccion t fila col j true d) : m.2.1 = true := by
  unfold movsDireccion at hm
  simp only [List.mem_append] at hm
  rcases hm with hm | hm
  · rw [if_neg] at hm
    · simp at hm
    · rintro ⟨-, -, -, -, -, -, h⟩
      exact absurd h (by simp)
  · split_ifs at hm with h
    · revert hm
      split
      · split_ifs with h2
        · intro hm
          simp only [List.mem_singleton] at hm
          subst hm
          rfl
        · intro hm
          simp at hm
      · intro hm
        simp at hm
    · simp at hm

/-- Every move of `movimientosPieza` with simple moves blocked is a capture. -/
lemma movimientosPieza_bloqueado {t : Tablero} {fila col : Int} {pieza : Pieza}
    {m : Movimiento} (hm : m ∈ movimientosPieza t fila col pieza true) :
    m.2.1 = true := by
  unfold movimientosPieza at hm
  dsimp only at hm
  split_ifs at hm with h
  · rcases List.mem_flatMap.mp hm with ⟨d, -, hd⟩
    exact movsDireccion_bloqueado hd
  · exact (List.mem_filter.mp hm).2

/-- Every move of the direction loop lands one or two diagonal steps away
in the scanned direction. -/
lemma movsDireccion_destino {t : Tablero} {fila col : Int} {j : Nat}
    {b : Bool} {d : Int × Int} {m : Movimiento}
    (hm : m ∈ movsDireccion t fila col j b d) :
    m.1 = (fila + d.1, col + d.2) ∨ m.1 = (fila + 2 * d.1, col + 2 * d.2) := by
  unfold movsDireccion at hm
  simp only [List.mem_append] at hm
  rcases hm with hm | hm
  · split_ifs at hm with h
    · simp only [List.mem_singleton] at hm
      subst hm
      exact Or.inl rfl
    · simp at hm
  · split_ifs at hm with h
    · revert hm
      split
      · split_ifs with h2
        · intro hm
          simp only [List.mem_singleton] at hm
          subst hm
          exact Or.inr rfl
        · intro hm
          simp at hm
      · intro hm
        simp at hm
    · simp at hm

/-- Membership in `movimientosPieza` comes from some scanned direction. -/
lemma movimientosPieza_mem {t : Tablero} {fila col : Int} {pieza : Pieza}
    {b : Bool} {m : Movimiento} (hm : m ∈ movimientosPieza t fila col pieza b) :
    ∃ d ∈ direccionesDe pieza, m ∈ movsDireccion t fila col pieza.jugador b d := by
  unfold movimientosPieza at hm
  dsimp only at hm
  split_ifs at hm with h
  · exact List.mem_flatMap.mp hm
  · exact List.mem_flatMap.mp (List.mem_of_mem_filter hm)

/-- C10: on an empty `estado_tablero` the end-of-game check returns
`(False, None)` — the zero-piece losing rules are only evaluated on a
non-empty board. -/
theorem C10_empty_board_not_over (s : TableroState)
    (h : s.estado_tablero = []) : verificar_fin_juego s = (false, none) := by
  simp [verificar_fin_juego, h]

theorem C10_empty_board_not_over_witness :
    tableroVacio.estado_tablero = [] ∧ verificar_fin_juego tableroVacio = (false, none) :=
  ⟨rfl, C10_empty_board_not_over tableroVacio rfl⟩

/-- C7: in the `MOVING` state the arrival check runs first — whenever the
distance is inside the tolerance band the step is independent of the bearing
error, sets both wheel velocities to zero, emits exactly one `ARRIVED`
message and transitions to `IDLE`. -/
theorem C7_arrival_check_first (s : DriverState) (dist e e' : ℚ)
    (h : dist < TOLERANCE_DIST) :
    movingStep s dist e = ({ s with state := "IDLE" }, (0, 0), [s.name ++ " ARRIVED"]) ∧
    movingStep s dist e = movingStep s dist e' ∧
    (movingStep s dist e).2.2.length = 1 := by
  refine ⟨?_, ?_, ?_⟩ <;> simp [movingStep, h]

theorem C7_arrival_check_first_witness :
    (1 / 100 : ℚ) < TOLERANCE_DIST ∧
    movingStep ⟨"W_01", "MOVING", 1 / 2, 0⟩ (1 / 100) 5 =
      (⟨"W_01", "IDLE", 1 / 2, 0⟩, (0, 0), ["W_01 ARRIVED"]) :=
  ⟨by norm_num [TOLERANCE_DIST],
   (C7_arrival_check_first ⟨"W_01", "MOVING", 1 / 2, 0⟩ (1 / 100) 5 (-7)
     (by norm_num [TOLERANCE_DIST])).1⟩

/-- C1 (amended): in the `TableroDamas` engine the mandatory-capture rule is
global — whenever `_hay_capturas_disponibles` holds for the team to move,
`obtener_movimientos_validos` (in its default checking mode) returns only
capture moves for every cell, so every simple move of that team is rejected
for that turn. -/
theorem C1_mandatory_capture_global_damas (t : Tablero) (turno : Nat)
    (fila col : Int) (m : Movimiento)
    (hhay : hay_capturas_disponibles t turno turno = true)
    (hm : m ∈ obtener_movimientos_validos t turno fila col true) :
    m.2.1 = true := by
  unfold obtener_movimientos_validos obtenerConBloqueo at hm
  cases hl : lookupT t (fila, col) with
  | none => rw [hl] at hm; simp at hm
  | some pieza =>
      rw [hl] at hm
      dsimp only at hm
      split_ifs at hm with hj
      · simp at hm
      · rw [not_ne_iff] at hj
        rw [hj, hhay] at hm
        exact movimientosPieza_bloqueado hm

theorem C1_mandatory_capture_global_damas_witness :
    hay_capturas_disponibles tableroC1 1 1 = true ∧
    obtener_movimientos_validos tableroC1 1 2 6 true = [] ∧
    (((4, 4), true, some ((3, 3) : Celda)) : Movimiento).2.1 = true :=
  ⟨by decide, by decide,
   C1_mandatory_capture_global_damas tableroC1 1 2 2 ((4, 4), true, some (3, 3))
     (by decide) (by decide)⟩

/-- C1 counterexample: in `CheckersGame.validate_move` a capture being
available to the moving team does not make simple moves illegal — the
mandatory-capture rule is not system-wide in the supervisor variant. -/
theorem C1_counterexample :
    supC1.current_team = "WHITE" ∧
    validate_move supC1 (2, 2) (4, 4) = some (true, some "B_01") ∧
    validate_move supC1 (6, 2) (7, 3) = some (true, none) :=
  ⟨rfl, by decide, by decide⟩

/-- C5 (amended): in the `TableroDamas` engine a non-promoted piece only
generates moves and two-cell captures in its two forward diagonal
directions; a backward move or capture is never produced. -/
theorem C5_men_move_forward_damas (t : Tablero) (turno : Nat) (fila col : Int)
    (pieza : Pieza) (verificar : Bool) (m : Movimiento)
    (hl : lookupT t (fila, col) = some pieza) (hq : pieza.es_reina = false)
    (hm : m ∈ obtener_movimientos_validos t turno fila col verificar) :
    m.1 = (fila + direccionJugador pieza.jugador, col + 1) ∨
    m.1 = (fila + direccionJugador pieza.jugador, col - 1) ∨
    m.1 = (fila + 2 * direccionJugador pieza.jugador, col + 2) ∨
    m.1 = (fila + 2 * direccionJugador pieza.jugador, col - 2) := by
  unfold obtener_movimientos_validos obtenerConBloqueo at hm
  rw [hl] at hm
  dsimp only at hm
  split_ifs at hm with hj
  · simp at hm
  · rcases movimientosPieza_mem hm with ⟨d, hd, hmd⟩
    have hdest := movsDireccion_destino hmd
    unfold direccionesDe at hd
    rw [if_neg (by simp [hq])] at hd
    unfold direccionJugador
    split_ifs at hd with h1
    · rw [if_pos h1]
      simp only [List.mem_cons, List.mem_singleton, List.not_mem_nil, or_false] at hd
      rcases hd with hd | hd <;> subst hd <;> rcases hdest with hdest | hdest <;>
        simp only [Prod.ext_iff] at hdest ⊢ <;> omega
    · rw [if_neg h1]
      simp only [List.mem_cons, List.mem_singleton, List.not_mem_nil, or_false] at hd
      rcases hd with hd | hd <;> subst hd <;> rcases hdest with hdest | hdest <;>
        simp only [Prod.ext_iff] at hdest ⊢ <;> omega

theorem C5_men_move_forward_damas_witness :
    lookupT tableroC5 (2, 2) = some ⟨1, false⟩ ∧
    ((((3, 3), false, none) : Movimiento).1 = ((2 : Int) + direccionJugador 1, (2 : Int) + 1) ∨
     (((3, 3), false, none) : Movimiento).1 = ((2 : Int) + direccionJugador 1, (2 : Int) - 1) ∨
     (((3, 3), false, none) : Movimiento).1 = ((2 : Int) + 2 * direccionJugador 1, (2 : Int) + 2) ∨
     (((3, 3), false, none) : Movimiento).1 = ((2 : Int) + 2 * direccionJugador 1, (2 : Int) - 2)) :=
  ⟨by decide,
   C5_men_move_forward_damas tableroC5 1 2 2 ⟨1, false⟩ true ((3, 3), false, none)
     (by decide) rfl (by decide)⟩

/-- C5 counterexample: `CheckersGame.validate_move` accepts a backward
two-cell capture by a non-promoted man — the forward-only restriction is
only applied to its simple moves. -/
theorem C5_counterexample :
    supC5.robots "W_01" = some ⟨"WHITE", false, true⟩ ∧
    supC5.board 5 1 = some "W_01" ∧
    ((3 : Int) - 5 < 0) ∧
    validate_move supC5 (1, 5) (3, 3) = some (true, some "B_01") :=
  ⟨rfl, by decide, by decide, by decide⟩

/-- With a victim already found, the rest of the flying-king scan succeeds
exactly when every remaining path cell is empty (any occupied cell is a
second piece and blocks). -/
lemma kingScan_someVictim (s : SupState) (team : String) (w v : String) :
    ∀ path : List (Int × Int),
      kingScan s team path (some w) = ScanResult.ok (some v) ↔
        (w = v ∧ ∀ c ∈ path, s.board c.1 c.2 = none) := by
  intro path
  induction path with
  | nil => simp [kingScan]
  | cons c rest ih =>
      cases hb : s.board c.1 c.2 with
      | none => simp [kingScan, hb, ih]
      | some found => simp [kingScan, hb]

/-- Characterization of the flying-king scan started with no victim: it
ends with `victim = v` exactly when the path splits as empty cells, then a
cell holding `v` (an opposing piece), then empty cells. -/
lemma kingScan_none_ok_iff (s : SupState) (team v : String) :
    ∀ path : List (Int × Int),
      kingScan s team path none = ScanResult.ok (some v) ↔
        ((∃ fi, s.robots v = some fi ∧ fi.team ≠ team) ∧
         ∃ l1 c l2, path = l1 ++ c :: l2 ∧
           (∀ a ∈ l1, s.board a.1 a.2 = none) ∧
           s.board c.1 c.2 = some v ∧
           (∀ a ∈ l2, s.board a.1 a.2 = none)) := by
  intro path
  induction path with
  | nil =>
      constructor
      · intro h
        simp [kingScan] at h
      · rintro ⟨-, l1, c, l2, hp, -⟩
        exact absurd hp.symm (by simp)
  | cons c rest ih =>
      cases hb : s.board c.1 c.2 with
      | none =>
          rw [show kingScan s team (c :: rest) none = kingScan s team rest none by
                simp [kingScan, hb], ih]
          constructor
          · rintro ⟨hrv, l1, c0, l2, hp, h1, hQ, h2⟩
            refine ⟨hrv, c :: l1, c0, l2, by rw [hp, List.cons_append], ?_, hQ, h2⟩
            intro a ha
            rcases List.mem_cons.mp ha with rfl | ha
            · exact hb
            · exact h1 a ha
          · rintro ⟨hrv, l1, c0, l2, hp, h1, hQ, h2⟩
            cases l1 with
            | nil =>
                simp only [List.nil_append, List.cons.injEq] at hp
                rw [← hp.1] at hQ
                rw [hQ] at hb
                cases hb
            | cons a l1' =>
                simp only [List.cons_append, List.cons.injEq] at hp
                refine ⟨hrv, l1', c0, l2, hp.2, ?_, hQ, h2⟩
                intro b hbmem
                exact h1 b (by simp [hbmem])
      | some found =>
          cases hr : s.robots found with
          | none =>
              rw [show kingScan s team (c :: rest) none = ScanResult.err by
                    simp [kingScan, hb, hr]]
              constructor
              · intro h; cases h
              · rintro ⟨⟨fi, hfi, -⟩, l1, c0, l2, hp, h1, hQ, h2⟩
                cases l1 with
                | nil =>
                    simp only [List.nil_append, List.cons.injEq] at hp
                    rw [← hp.1] at hQ
                    rw [hQ] at hb
                    injection hb with hb'
                    rw [← hb'] at hr
                    rw [hfi] at hr
                    cases hr
                | cons a l1' =>
                    simp only [List.cons_append, List.cons.injEq] at hp
                    have ha := h1 a (by simp)
                    rw [← hp.1] at ha
                    rw [ha] at hb
                    cases hb
          | some fi =>
              by_cases ht : fi.team ≠ team
              · rw [show kingScan s team (c :: rest) none = kingScan s team rest (some found) by
                      simp [kingScan, hb, hr, ht], kingScan_someVictim]
                constructor
                · rintro ⟨rfl, hrest⟩
                  exact ⟨⟨fi, hr, ht⟩, [], c, rest, rfl, by simp, hb, hrest⟩
                · rintro ⟨⟨fi', hfi', hfi't⟩, l1, c0, l2, hp, h1, hQ, h2⟩
                  cases l1 with
                  | nil =>
                      simp only [List.nil_append, List.cons.injEq] at hp
                      rw [← hp.1] at hQ
                      rw [hQ] at hb
                      injection hb with hb'
                      refine ⟨hb'.symm, ?_⟩
                      rw [hp.2]
                      exact h2
                  | cons a l1' =>
                      simp only [List.cons_append, List.cons.injEq] at hp
                      have ha := h1 a (by simp)
                      rw [← hp.1] at ha
                      rw [ha] at hb
                      cases hb
              · rw [show kingScan s team (c :: rest) none = ScanResult.blocked by
                      simp [kingScan, hb, hr, ht]]
                constructor
                · intro h; cases h
                · rintro ⟨⟨fi', hfi', hfi't⟩, l1, c0, l2, hp, h1, hQ, h2⟩
                  cases l1 with
                  | nil =>
                      simp only [List.nil_append, List.cons.injEq] at hp
                      rw [← hp.1] at hQ
                      rw [hQ] at hb
                      injection hb with hb'
                      rw [hb'] at hfi'
                      rw [hr] at hfi'
                      injection hfi' with hfi''
                      rw [← hfi''] at hfi't
                      exact absurd hfi't ht
                  | cons a l1' =>
                      simp only [List.cons_append, List.cons.injEq] at hp
                      have ha := h1 a (by simp)
                      rw [← hp.1] at ha
                      rw [ha] at hb
                      cases hb

/-- The sign helper only takes the values `1` and `-1`. -/
lemma pyDir_cases (z : Int) : pyDir z = 1 ∨ pyDir z = -1 := by
  unfold pyDir
  split_ifs <;> simp

/-- The scanned path visits pairwise distinct cells (the row coordinate is
strictly monotone along the scan). -/
lemma betweenPath_nodup (oy ox dirx : Int) (steps : Nat) (diry : Int)
    (hd : diry = 1 ∨ diry = -1) : (betweenPath oy ox diry dirx steps).Nodup := by
  unfold betweenPath
  have hinj : Function.Injective
      (fun (i : Nat) => ((oy + ((i : Int) + 1) * diry, ox + ((i : Int) + 1) * dirx) : Int × Int)) := by
    intro i j hij
    simp only [Prod.mk.injEq] at hij
    have h1 := hij.1
    rcases hd with h | h <;> rw [h] at h1 <;> omega
  exact List.Nodup.map hinj (List.nodup_range _)

/-- On a duplicate-free list, splitting off one distinguished element with a
property, all others satisfying another, is the same as one member having
the property while every other member satisfies the other. -/
lemma decomp_unique_mem_iff {α : Type} [DecidableEq α] {l : List α}
    (hnd : l.Nodup) (P Q : α → Prop) :
    (∃ l1 c l2, l = l1 ++ c :: l2 ∧ (∀ a ∈ l1, P a) ∧ Q c ∧ (∀ a ∈ l2, P a)) ↔
    (∃ c ∈ l, Q c ∧ ∀ a ∈ l, a ≠ c → P a) := by
  constructor
  · rintro ⟨l1, c, l2, rfl, h1, hQ, h2⟩
    refine ⟨c, by simp, hQ, ?_⟩
    intro a ha hne
    rcases List.mem_append.mp ha with ha | ha
    · exact h1 a ha
    · rcases List.mem_cons.mp ha with rfl | ha
      · exact absurd rfl hne
      · exact h2 a ha
  · rintro ⟨c, hc, hQ, hall⟩
    obtain ⟨l1, l2, rfl⟩ := List.append_of_mem hc
    have hnotl1 : c ∉ l1 := by
      intro hc1
      have hdisj := (List.nodup_append.mp hnd).2.2
      exact hdisj hc1 (List.mem_cons_self c l2)
    have hnotl2 : c ∉ l2 := by
      have := (List.nodup_append.mp hnd).2.1
      exact (List.nodup_cons.mp this).1
    refine ⟨l1, c, l2, rfl, ?_, hQ, ?_⟩
    · intro a ha
      exact hall a (by simp [ha]) (fun hac => hnotl1 (hac ▸ ha))
    · intro a ha
      exact hall a (by simp [ha]) (fun hac => hnotl2 (hac ▸ ha))

/-- C2 (amended): in `CheckersGame.validate_move` a king's diagonal move of
distance at least two is accepted as a capture of `v` exactly when the
landing cell is empty and the cells strictly between origin and destination
contain exactly one occupied cell, holding the opposing piece `v`; an own
piece or a second occupied cell anywhere in the path rejects the move.  (In
the `TableroDamas` engine kings have no flying captures; see the
counterexample.) -/
theorem C2_flying_king_capture_iff (s : SupState) (ox oy dx dy : Int)
    (p : String) (info : RobotInfo) (v : String)
    (hpo : s.board oy ox = some p) (hrob : s.robots p = some info)
    (hking : info.is_king = true)
    (hdiag : (dx - ox).natAbs = (dy - oy).natAbs)
    (hdist : 2 ≤ (dx - ox).natAbs) :
    validate_move s (ox, oy) (dx, dy) = some (true, some v) ↔
      (s.board dy dx = none ∧
       (∃ fi, s.robots v = some fi ∧ fi.team ≠ info.team) ∧
       ∃ c ∈ betweenPath oy ox (pyDir (dy - oy)) (pyDir (dx - ox)) (dx - ox).natAbs,
         s.board c.1 c.2 = some v ∧
         ∀ a ∈ betweenPath oy ox (pyDir (dy - oy)) (pyDir (dx - ox)) (dx - ox).natAbs,
           a ≠ c → s.board a.1 a.2 = none) := by
  by_cases hdest : s.board dy dx = none
  case neg =>
      constructor
      · intro h
        exfalso
        obtain ⟨w, hw⟩ := Option.ne_none_iff_exists'.mp hdest
        unfold validate_move at h
        dsimp only at h
        rw [hw] at h
        simp at h
      · rintro ⟨h, -⟩
        exact absurd h hdest
  case pos =>
      have hconv := decomp_unique_mem_iff
        (betweenPath_nodup oy ox (pyDir (dx - ox)) (dx - ox).natAbs (pyDir (dy - oy))
          (pyDir_cases _))
        (fun a => s.board a.1 a.2 = none) (fun c => s.board c.1 c.2 = some v)
      unfold validate_move
      dsimp only
      rw [hdest]
      rw [if_neg (by simp)]
      rw [hpo]
      dsimp only
      rw [hrob]
      dsimp only
      rw [if_neg (not_ne_iff.mpr hdiag)]
      rw [if_neg (by rw [hking]; simp)]
      cases hscan : kingScan s info.team
          (betweenPath oy ox (pyDir (dy - oy)) (pyDir (dx - ox)) (dx - ox).natAbs) none with
      | err =>
          dsimp only
          constructor
          · intro h
            cases h
          · rintro ⟨-, hrv, hmem⟩
            have := (kingScan_none_ok_iff s info.team v _).mpr ⟨hrv, hconv.mpr hmem⟩
            rw [hscan] at this
            cases this
      | blocked =>
          dsimp only
          constructor
          · intro h
            simp at h
          · rintro ⟨-, hrv, hmem⟩
            have := (kingScan_none_ok_iff s info.team v _).mpr ⟨hrv, hconv.mpr hmem⟩
            rw [hscan] at this
            cases this
      | ok w =>
          cases w with
          | none =>
              dsimp only
              constructor
              · intro h
                split_ifs at h <;> simp at h
              · rintro ⟨-, hrv, hmem⟩
                have := (kingScan_none_ok_iff s info.team v _).mpr ⟨hrv, hconv.mpr hmem⟩
                rw [hscan] at this
                cases this
          | some u =>
              dsimp only
              have hiff := kingScan_none_ok_iff s info.team v
                (betweenPath oy ox (pyDir (dy - oy)) (pyDir (dx - ox)) (dx - ox).natAbs)
              rw [hscan] at hiff
              constructor
              · intro h
                simp only [Option.some.injEq, Prod.mk.injEq, true_and] at h
                rcases (hiff.mp (by rw [h])) with ⟨hrv, hdecomp⟩
                exact ⟨rfl, hrv, hconv.mp hdecomp⟩
              · rintro ⟨-, hrv, hmem⟩
                have := hiff.mpr ⟨hrv, hconv.mpr hmem⟩
                injection this with h1
                injection h1 with h2
                rw [h2]

theorem C2_flying_king_capture_iff_witness :
    supC2.board 1 1 = some "W_01" ∧
    supC2.robots "W_01" = some ⟨"WHITE", true, true⟩ ∧
    validate_move supC2 (1, 1) (5, 5) = some (true, some "B_01") :=
  ⟨by decide, rfl,
   (C2_flying_king_capture_iff supC2 1 1 5 5 "W_01" ⟨"WHITE", true, true⟩ "B_01"
      (by decide) rfl rfl (by decide) (by decide)).mpr
     ⟨by decide, ⟨⟨"BLACK", false, true⟩, rfl, by decide⟩, by decide⟩⟩

/-- C2 counterexample: in `TableroDamas` a king's diagonal move of distance
three over exactly one opposing piece, with every other path cell and the
landing cell empty, is rejected — that engine only generates two-cell king
captures, so the flying-capture rule does not hold repository-wide. -/
theorem C2_counterexample :
    lookupT tableroC2 (0, 0) = some ⟨1, true⟩ ∧
    lookupT tableroC2 (1, 1) = some ⟨2, false⟩ ∧
    lookupT tableroC2 (2, 2) = none ∧
    lookupT tableroC2 (3, 3) = none ∧
    validar_movimiento estadoC2 (0, 0) (3, 3) = (false, false, none) ∧
    obtener_movimientos_validos tableroC2 1 0 0 true = [((2, 2), true, some (1, 1))] := by
  decide

/-- C8 (amended): in the `TableroDamas` engine, after a finalized turn
switch (so the opponent, who just moved, still has at least one piece) the
game is declared over with the opponent as winner exactly when the team to
move has zero pieces or no piece of the team to move has any legal move;
otherwise the game continues.  The `CheckersGame` supervisor performs no
win detection at all (see the counterexample). -/
theorem C8_win_detection (s : TableroState)
    (hturno : s.turno_actual = 1 ∨ s.turno_actual = 2)
    (hwf : ∀ e ∈ s.estado_tablero, e.2.jugador = 1 ∨ e.2.jugador = 2)
    (hopp : 0 < (s.estado_tablero.filter
        (fun e => e.2.jugador = (if s.turno_actual = 1 then 2 else 1))).length) :
    verificar_fin_juego s =
      (if (s.estado_tablero.filter (fun e => e.2.jugador = s.turno_actual)).length = 0 ∨
          (∀ e ∈ s.estado_tablero, e.2.jugador = s.turno_actual →
            obtener_movimientos_validos s.estado_tablero s.turno_actual e.1.1 e.1.2 true = [])
       then (true, some (if s.turno_actual = 1 then 2 else 1))
       else (false, none)) := by
  have hne : ¬ s.estado_tablero.isEmpty = true := by
    intro h
    rw [List.isEmpty_iff] at h
    rw [h] at hopp
    simp at hopp
  rcases hturno with h1 | h1
  · rw [h1] at hopp
    rw [if_pos rfl] at hopp
    have hmiff : ((s.estado_tablero.flatMap (fun e =>
        if e.2.jugador = 1 then
          obtener_movimientos_validos s.estado_tablero 1 e.1.1 e.1.2 true
        else [])).isEmpty = true) ↔
        (∀ e ∈ s.estado_tablero, e.2.jugador = 1 →
          obtener_movimientos_validos s.estado_tablero 1 e.1.1 e.1.2 true = []) := by
      rw [List.isEmpty_iff, List.flatMap_eq_nil_iff]
      constructor
      · intro h e he hj
        have hp := h e he
        rwa [if_pos hj] at hp
      · intro h e he
        by_cases hj : e.2.jugador = 1
        · rw [if_pos hj]
          exact h e he hj
        · rw [if_neg hj]
    unfold verificar_fin_juego
    rw [h1]
    dsimp only
    rw [if_neg hne]
    split_ifs with g1 g2 g3 g4 g5 g6 g7 g8 g9 g10 g11 g12 g13 g14 <;>
      first
        | rfl
        | (exfalso; omega)
        | (exact absurd rfl (by assumption))
        | (exfalso; exact g2 (Or.inl g1))
        | (exfalso; exact g5 (Or.inl g1))
        | tauto
  · rw [h1] at hopp
    rw [if_neg (show ¬ ((2 : Nat) = 1) by decide)] at hopp
    have hmiff : ((s.estado_tablero.flatMap (fun e =>
        if e.2.jugador = 1 then []
        else obtener_movimientos_validos s.estado_tablero 2 e.1.1 e.1.2 true)).isEmpty = true) ↔
        (∀ e ∈ s.estado_tablero, e.2.jugador = 2 →
          obtener_movimientos_validos s.estado_tablero 2 e.1.1 e.1.2 true = []) := by
      rw [List.isEmpty_iff, List.flatMap_eq_nil_iff]
      constructor
      · intro h e he hj
        have hp := h e he
        rwa [if_neg (show ¬ (e.2.jugador = 1) by rw [hj]; decide)] at hp
      · intro h e he
        by_cases hj : e.2.jugador = 1
        · rw [if_pos hj]
        · rw [if_neg hj]
          rcases hwf e he with hh | hh
          · exact absurd hh hj
          · exact h e he hh
    unfold verificar_fin_juego
    rw [h1]
    dsimp only
    rw [if_neg hne]
    split_ifs with g1 g2 g3 g4 g5 g6 g7 g8 g9 g10 g11 g12 g13 g14 <;>
      first
        | rfl
        | (exfalso; omega)
        | (exact absurd rfl (by assumption))
        | (exfalso; exact g2 (Or.inl g1))
        | (exfalso; exact g5 (Or.inl g1))
        | tauto

theorem C8_win_detection_witness :
    0 < (tableroC8.estado_tablero.filter
        (fun e => e.2.jugador = (if tableroC8.turno_actual = 1 then 2 else 1))).length ∧
    verificar_fin_juego tableroC8 = (true, some 2) :=
  ⟨by decide, by
    have h := C8_win_detection tableroC8 (Or.inl rfl) (by decide) (by decide)
    rw [h]
    decide⟩

/-- C8 counterexample: the `CheckersGame` supervisor never detects a win.
Its state carries no winner or game-over field, and `switch_turn` only flips
`current_team`.  Concretely, from `supC8x` the tile click on `(4,4)` makes
`W_01` capture `B_01` — the only BLACK robot — and when the `ARRIVED`
message is processed the turn is simply handed to BLACK: the resulting state
has `current_team = "BLACK"` with `B_01` dead and no BLACK piece on the
board, and the game continues instead of declaring WHITE the winner. -/
theorem C8_counterexample :
    (supC8x.robots "B_01").map RobotInfo.alive = some true ∧
    supC8x.current_team = "WHITE" ∧
    ((handle_tile_click supC8x 4 4).bind
        (fun s1 => process_robot_message s1 "W_01 ARRIVED")).map
      (fun s2 => (s2.current_team, (s2.robots "B_01").map RobotInfo.alive,
                  (s2.robots "W_01").map RobotInfo.alive,
                  s2.board 3 3, s2.board 4 4, s2.board 2 2,
                  s2.waiting_for_robot, s2.forced_piece)) =
      some ("BLACK", some false, some true, none, some "W_01", none,
            false, none) :=
  ⟨rfl, rfl, rfl⟩

/-- C9 counterexample: a protocol message with fewer than two
whitespace-separated tokens is not dropped silently by the supervisor —
`parts[1]` raises an IndexError (modeled by `none`) before the addressing
or command-kind checks run. -/
theorem C9_counterexample :
    pySplit "PING" = ["PING"] ∧
    process_robot_message supC9 "PING" = none :=
  ⟨rfl, rfl⟩

/-- C9 (amended): a message that fails the driver's address check (a name
test via `startswith`) is dropped silently with the driver state unchanged;
an addressed message of at least two tokens whose command is neither `MOVE`
nor `DIE` leaves the driver state unchanged; and a message of at least two
tokens that is not an `ARRIVED` from the currently moving robot leaves the
supervisor state unchanged.  Messages with fewer than two tokens instead
raise an IndexError (see the counterexample). -/
theorem C9_malformed_messages_dropped :
    (∀ (s : DriverState) (msg : String), pyStartsWith msg s.name = false →
        driver_process_message s msg = some s) ∧
    (∀ (s : DriverState) (msg sender cmd : String) (rest : List String),
        pyStartsWith msg s.name = true → pySplit msg = sender :: cmd :: rest →
        cmd ≠ "MOVE" → cmd ≠ "DIE" →
        driver_process_message s msg = some s) ∧
    (∀ (s : SupState) (msg sender cmd : String) (rest : List String),
        pySplit msg = sender :: cmd :: rest →
        (cmd ≠ "ARRIVED" ∨ s.moving_robot_name ≠ some sender) →
        process_robot_message s msg = some s) := by
  refine ⟨?_, ?_, ?_⟩
  · intro s msg h
    unfold driver_process_message
    rw [h]
    rw [if_pos rfl]
  · intro s msg sender cmd rest hpre hsplit hcm hcd
    unfold driver_process_message
    rw [hpre]
    rw [if_neg (by simp)]
    rw [hsplit]
    dsimp only
    rw [if_neg (by rintro (h | h); exact hcm h; exact hcd h)]
  · intro s msg sender cmd rest hsplit hcond
    unfold process_robot_message
    rw [hsplit]
    dsimp only
    rw [if_neg (by
      rintro ⟨ha, hb⟩
      rcases hcond with h | h
      · exact h ha
      · exact h hb)]

theorem C9_malformed_messages_dropped_witness :
    pyStartsWith "B_07 MOVE 0.1 0.2" "W_01" = false ∧
    driver_process_message driverC9 "B_07 MOVE 0.1 0.2" = some driverC9 :=
  ⟨by decide,
   C9_malformed_messages_dropped.1 driverC9 "B_07 MOVE 0.1 0.2" (by decide)⟩

/-- C3 (amended, supervisor part): in `CheckersGame`, when a committed move
captures a piece and lands a non-promoted man on its promotion rank,
promotion takes precedence and the capture chain ends: `forced_piece` is
not set (further captures are never even probed), and on the matching
`ARRIVED` acknowledgement the piece is crowned king and the turn passes to
the other team. -/
theorem C3_promotion_ends_capture_chain (s : SupState) (ox oy dx dy : Int)
    (piece : String) (info : RobotInfo) (cp : String) (cpi : RobotInfo) (m : String)
    (hpo : s.board oy ox = some piece)
    (hrob : s.robots piece = some info)
    (hman : info.is_king = false)
    (hpromo : (info.team = "WHITE" ∧ dy = 7) ∨ (info.team = "BLACK" ∧ dy = 0))
    (hcp : s.robots cp = some cpi)
    (hne : cp ≠ piece)
    (hmsg : pySplit m = [piece, "ARRIVED"]) :
    (execute_move s (ox, oy) (dx, dy) (some cp)).map SupState.forced_piece = some none ∧
    ((execute_move s (ox, oy) (dx, dy) (some cp)).bind
        (fun t => process_robot_message t m)).map
      (fun t => ((t.robots piece).map RobotInfo.is_king, t.current_team, t.forced_piece)) =
      some (some true,
            (if s.current_team = "WHITE" then "BLACK" else "WHITE"), none) := by
  have hexec : execute_move s (ox, oy) (dx, dy) (some cp) = some
      { board := boardAfterMove
          (fun y x => if s.board y x = some cp then none else s.board y x) ox oy dx dy piece,
        robots := fun nm => if nm = cp then some { cpi with alive := false } else s.robots nm,
        current_team := s.current_team,
        selected_piece := none,
        selected_grid := s.selected_grid,
        waiting_for_robot := true,
        moving_robot_name := some piece,
        moving_robot_target := some (dx, dy),
        forced_piece := none } := by
    unfold execute_move
    dsimp only
    rw [hpo]
    dsimp only
    rw [hrob]
    dsimp only
    unfold capture_piece
    rw [hcp]
    dsimp only
    rw [if_neg (by
      rintro ⟨-, hno⟩
      exact hno ⟨hman, hpromo⟩)]
  rw [hexec]
  refine ⟨rfl, ?_⟩
  show (process_robot_message _ m).map _ = _
  unfold process_robot_message
  rw [hmsg]
  try dsimp only
  rw [if_pos ⟨rfl, rfl⟩]
  try dsimp only
  rw [if_neg (fun hh => hne hh.symm)]
  rw [hrob]
  try dsimp only
  rw [if_neg (show ¬ ((none : Option String) ≠ none) by simp)]
  rw [if_pos ⟨hman, hpromo⟩]
  try dsimp only [Option.map]
  rw [if_pos rfl]

theorem C3_promotion_ends_capture_chain_witness :
    (execute_move supC3 (2, 5) (4, 7) (some "B_01")).map SupState.forced_piece = some none ∧
    ((execute_move supC3 (2, 5) (4, 7) (some "B_01")).bind
        (fun t => process_robot_message t "W_01 ARRIVED")).map
      (fun t => ((t.robots "W_01").map RobotInfo.is_king, t.current_team, t.forced_piece)) =
      some (some true,
            (if supC3.current_team = "WHITE" then "BLACK" else "WHITE"), none) :=
  C3_promotion_ends_capture_chain supC3 2 5 4 7 "W_01" ⟨"WHITE", false, true⟩
    "B_01" ⟨"BLACK", false, true⟩ "W_01 ARRIVED"
    (by decide) rfl rfl (Or.inl ⟨rfl, rfl⟩) (by decide) (by decide) (by decide)

/-- C3 counterexample: in `TableroDamas.realizar_movimiento` a capture that
lands on the promotion rank promotes the piece and then still checks for
further captures from the landing cell — the combo continues (the selection
is forced to the landing cell, `jugando_captura` stays set) and the turn
does not pass, contradicting promotion-takes-precedence. -/
theorem C3_counterexample :
    (realizar_movimiento estadoC3 (5, 1) (7, 3)).map
      (fun r => (r.2, r.1.jugando_captura, r.1.turno_actual, r.1.pieza_seleccionada,
                 (lookupT r.1.estado_tablero (7, 3)).map Pieza.es_reina)) =
      some (true, true, 1, some (7, 3), some true) := by
  rfl

/-- `execute_move` always ends by clearing `selected_piece`. -/
lemma execute_move_selected_none {s : SupState} {o d : Int × Int}
    {cap : Option String} {t : SupState}
    (h : execute_move s o d cap = some t) : t.selected_piece = none := by
  unfold execute_move at h
  repeat' first
    | (split at h)
    | (dsimp only at h)
  all_goals try cases h
  all_goals try (injection h with h'; rw [← h'])
  all_goals rfl

/-- C4 (amended): in `CheckersGame`, while `forced_piece` is set no
selection or destination event can switch the selected piece to another
piece: clicking a different robot is rejected with no state change, a
destination click that fails validation preserves the full state (the
selection in particular), and the selected piece stays in `{None, forced}`
across both event handlers.  In the `DamasController` variant the invariant
fails: during a capture combo a click on a playable cell outside the current
capture destinations falls through and deselects the piece, after which a
different piece of the same team can be selected (see the counterexample). -/
theorem C4_forced_piece_selection_invariant :
    (∀ (s : SupState) (p q : String),
        s.forced_piece = some p → q ≠ p → handle_robot_click s q = some s) ∧
    (∀ (s : SupState) (p : String) (og : Int × Int) (x y : Int) (cv : Option String),
        s.forced_piece = some p → s.selected_grid = some og →
        validate_move s og (x, y) = some (false, cv) →
        handle_tile_click s x y = some s) ∧
    (∀ (s t : SupState) (p q : String),
        s.forced_piece = some p →
        (s.selected_piece = none ∨ s.selected_piece = some p) →
        handle_robot_click s q = some t →
        (t.selected_piece = none ∨ t.selected_piece = some p)) ∧
    (∀ (s t : SupState) (p : String) (x y : Int),
        s.forced_piece = some p →
        (s.selected_piece = none ∨ s.selected_piece = some p) →
        handle_tile_click s x y = some t →
        (t.selected_piece = none ∨ t.selected_piece = some p)) ∧
    (∀ (s : TableroState) (fila col : Int),
        s.jugando_captura = true → s.pieza_seleccionada.isSome = true →
        es_casilla_negra fila col = true →
        (fila, col) ∉ s.movimientos_validos.map (fun m => m.1) →
        procesar_click_tile s fila col =
          some { s with pieza_seleccionada := none, movimientos_validos := [] }) := by
  refine ⟨?_, ?_, ?_, ?_, ?_⟩
  · intro s p q hp hq
    unfold handle_robot_click
    by_cases hw : s.waiting_for_robot = true
    · rw [if_pos hw]
    · rw [if_neg hw]
      rw [if_pos ⟨by rw [hp]; simp,
                  by rw [hp]; intro hh; exact hq (Option.some.inj hh).symm⟩]
  · intro s p og x y cv hp hog hval
    unfold handle_tile_click
    by_cases h0 : s.waiting_for_robot = true ∨ s.selected_piece = none
    · rw [if_pos h0]
    · rw [if_neg h0]
      rw [hog]
      dsimp only
      rw [hval]
      dsimp only
      rw [if_neg (by simp)]
      rw [if_neg (by rw [hp]; simp)]
  · intro s t p q hp hsel h
    unfold handle_robot_click at h
    split at h
    · injection h with h'
      rw [← h']
      exact hsel
    · split at h
      · injection h with h'
        rw [← h']
        exact hsel
      · rename_i hcond
        split at h
        · cases h
        · split at h
          · injection h with h'
            rw [← h']
            exact hsel
          · split at h
            · injection h with h'
              rw [← h']
              exact hsel
            · injection h with h'
              rw [← h']
              right
              have hqp : p = q := by
                rw [hp] at hcond
                push_neg at hcond
                have h2 := hcond (by simp)
                exact Option.some.inj h2
              rw [hqp]
  · intro s t p x y hp hsel h
    unfold handle_tile_click at h
    split at h
    · injection h with h'
      rw [← h']
      exact hsel
    · split at h
      · cases h
      · split at h
        · cases h
        · split at h
          · left
            exact execute_move_selected_none h
          · split at h
            · injection h with h'
              rw [← h']
              left
              rfl
            · injection h with h'
              rw [← h']
              exact hsel
  · intro s fila col hj hs hneg hmem
    unfold procesar_click_tile
    rw [if_neg (by simp [hneg])]
    rw [if_neg (fun hc => hmem hc.2.2)]
    rw [if_pos hs]
    cases hps : s.pieza_seleccionada with
    | none =>
        rw [hps] at hs
        simp at hs
    | some sel =>
        dsimp only
        rw [if_neg hmem]

theorem C4_forced_piece_selection_invariant_witness :
    supC4.forced_piece = some "W_01" ∧
    handle_robot_click supC4 "W_02" = some supC4 :=
  ⟨rfl, C4_forced_piece_selection_invariant.1 supC4 "W_01" "W_02" rfl (by decide)⟩

/-- C4 counterexample: in `DamasController`, mid-combo (the white man at
`(4,4)` is selected with its mandatory capture pending), a click on the
playable cell `(0,0)` outside the capture destinations deselects the piece
while `jugando_captura` stays set; the next click then selects the DIFFERENT
white man at `(2,0)`, and a third click on `(4,2)` moves that other piece —
capturing `(3,1)` and switching the turn — while the combo piece `(4,4)`
still sits untouched with its forced capture abandoned. -/
theorem C4_counterexample :
    estadoC4d.jugando_captura = true ∧
    estadoC4d.pieza_seleccionada = some (4, 4) ∧
    (procesar_click_tile estadoC4d 0 0).map
      (fun s1 => (s1.pieza_seleccionada, s1.jugando_captura)) =
      some (none, true) ∧
    ((procesar_click_tile estadoC4d 0 0).bind
        (fun s1 => procesar_click_tile s1 2 0)).map
      (fun s2 => (s2.pieza_seleccionada, s2.jugando_captura)) =
      some (some (2, 0), true) ∧
    (((procesar_click_tile estadoC4d 0 0).bind
        (fun s1 => procesar_click_tile s1 2 0)).bind
        (fun s2 => procesar_click_tile s2 4 2)).map
      (fun s3 => (s3.turno_actual, lookupT s3.estado_tablero (4, 2),
                  lookupT s3.estado_tablero (2, 0), lookupT s3.estado_tablero (3, 1),
                  lookupT s3.estado_tablero (4, 4))) =
      some (2, some ⟨1, false⟩, none, none, some ⟨1, false⟩) := by
  decide

/-- `capture_piece` preserves the invariant, marks the captured robot dead
and removes it from every board cell. -/
lemma capture_inv (s : SupState) (n : String) (hInv : BoardInv s) (t : SupState)
    (hc : capture_piece s n = some t) :
    BoardInv t ∧ (∃ i, t.robots n = some i ∧ i.alive = false) ∧
    (∀ y x, t.board y x ≠ some n) := by
  unfold capture_piece at hc
  cases hr : s.robots n with
  | none =>
      rw [hr] at hc
      cases hc
  | some info =>
      rw [hr] at hc
      dsimp only at hc
      injection hc with hc'
      rw [← hc']
      refine ⟨⟨?_, ?_⟩, ⟨{ info with alive := false }, ?_, rfl⟩, ?_⟩
      · intro y x p hp
        dsimp only at hp ⊢
        by_cases hb : s.board y x = some n
        · rw [if_pos hb] at hp
          cases hp
        · rw [if_neg hb] at hp
          have hpn : p ≠ n := fun hh => hb (hh ▸ hp)
          obtain ⟨i, hi, ha⟩ := hInv.1 y x p hp
          exact ⟨i, by rw [if_neg hpn]; exact hi, ha⟩
      · intro p i hpi hal
        dsimp only at hpi
        by_cases hpn : p = n
        · subst hpn
          rw [if_pos rfl] at hpi
          injection hpi with hpi'
          rw [← hpi'] at hal
          exact absurd hal (by simp)
        · rw [if_neg hpn] at hpi
          obtain ⟨c0, hc0, huniq⟩ := hInv.2 p i hpi hal
          refine ⟨c0, ?_, ?_⟩
          · dsimp only
            rw [hc0]
            rw [if_neg (fun hh => hpn (Option.some.inj hh))]
          · rintro ⟨cy, cx⟩ hcc
            dsimp only at hcc
            by_cases hb : s.board cy cx = some n
            · rw [if_pos hb] at hcc
              cases hcc
            · rw [if_neg hb] at hcc
              exact huniq (cy, cx) hcc
      · dsimp only
        rw [if_pos rfl]
      · intro y x
        dsimp only
        by_cases hb : s.board y x = some n
        · rw [if_pos hb]
          simp
        · rw [if_neg hb]
          exact hb

/-- Relocating a piece from an occupied origin to an empty destination
preserves the invariant. -/
lemma move_preserves_inv (s t : SupState) (ox oy dx dy : Int) (piece : String)
    (hInv : BoardInv s) (ho : s.board oy ox = some piece) (hd : s.board dy dx = none)
    (hb : t.board = boardAfterMove s.board ox oy dx dy piece)
    (hr : t.robots = s.robots) : BoardInv t := by
  have hod : ¬ (dy = oy ∧ dx = ox) := by
    rintro ⟨h1, h2⟩
    rw [h1, h2, ho] at hd
    cases hd
  constructor
  · intro y x p hp
    rw [hb] at hp
    unfold boardAfterMove at hp
    rw [hr]
    by_cases h1 : y = oy ∧ x = ox
    · rw [if_pos h1] at hp
      cases hp
    · rw [if_neg h1] at hp
      by_cases h2 : y = dy ∧ x = dx
      · rw [if_pos h2] at hp
        injection hp with hp'
        subst hp'
        exact hInv.1 oy ox piece ho
      · rw [if_neg h2] at hp
        exact hInv.1 y x p hp
  · intro p i hpi hal
    rw [hr] at hpi
    by_cases hpp : p = piece
    · subst hpp
      refine ⟨(dy, dx), ?_, ?_⟩
      · rw [hb]
        unfold boardAfterMove
        dsimp only
        rw [if_neg hod, if_pos ⟨rfl, rfl⟩]
      · rintro ⟨cy, cx⟩ hcc
        rw [hb] at hcc
        unfold boardAfterMove at hcc
        dsimp only at hcc
        by_cases h1 : cy = oy ∧ cx = ox
        · rw [if_pos h1] at hcc
          cases hcc
        · rw [if_neg h1] at hcc
          by_cases h2 : cy = dy ∧ cx = dx
          · rw [h2.1, h2.2]
          · rw [if_neg h2] at hcc
            obtain ⟨c0, hc0, huniq⟩ := hInv.2 p i hpi hal
            have h3 := huniq (cy, cx) hcc
            have h4 := huniq (oy, ox) ho
            have h5 : (cy, cx) = ((oy, ox) : Int × Int) := h3.trans h4.symm
            rw [Prod.mk.injEq] at h5
            exact absurd h5 h1
    · obtain ⟨c0, hc0, huniq⟩ := hInv.2 p i hpi hal
      have hc0o : ¬ (c0.1 = oy ∧ c0.2 = ox) := by
        rintro ⟨h1, h2⟩
        rw [h1, h2, ho] at hc0
        injection hc0 with hh
        exact hpp hh.symm
      have hc0d : ¬ (c0.1 = dy ∧ c0.2 = dx) := by
        rintro ⟨h1, h2⟩
        rw [h1, h2, hd] at hc0
        cases hc0
      refine ⟨c0, ?_, ?_⟩
      · rw [hb]
        unfold boardAfterMove
        dsimp only
        rw [if_neg hc0o, if_neg hc0d]
        exact hc0
      · rintro ⟨cy, cx⟩ hcc
        rw [hb] at hcc
        unfold boardAfterMove at hcc
        dsimp only at hcc
        by_cases h1 : cy = oy ∧ cx = ox
        · rw [if_pos h1] at hcc
          cases hcc
        · rw [if_neg h1] at hcc
          by_cases h2 : cy = dy ∧ cx = dx
          · rw [if_pos h2] at hcc
            injection hcc with hh
            exact absurd hh.symm hpp
          · rw [if_neg h2] at hcc
            exact huniq (cy, cx) hcc

/-- A successful flying-king scan puts the victim on some path cell and in
the robot registry. -/
lemma kingScan_ok_mem (s : SupState) (team v : String) (path : List (Int × Int))
    (h : kingScan s team path none = ScanResult.ok (some v)) :
    (∃ c ∈ path, s.board c.1 c.2 = some v) ∧ ∃ fi, s.robots v = some fi := by
  rcases (kingScan_none_ok_iff s team v path).mp h with ⟨⟨fi, hfi, -⟩, l1, c, l2, rfl, -, hQ, -⟩
  exact ⟨⟨c, by simp, hQ⟩, fi, hfi⟩

/-- A validated capture places the victim on a board cell other than the
origin, and the victim is a registered robot. -/
lemma validate_true_some_facts (s : SupState) (ox oy dx dy : Int) (v : String)
    (h : validate_move s (ox, oy) (dx, dy) = some (true, some v)) :
    (∃ yv xv, ¬ (yv = oy ∧ xv = ox) ∧ s.board yv xv = some v) ∧
    (∃ vi, s.robots v = some vi) := by
  unfold validate_move at h
  dsimp only at h
  by_cases hdx : (s.board dy dx).isSome = true
  · rw [if_pos hdx] at h
    simp at h
  · rw [if_neg hdx] at h
    cases hbo : s.board oy ox with
    | none =>
        rw [hbo] at h
        cases h
    | some piece =>
        rw [hbo] at h
        dsimp only at h
        cases hro : s.robots piece with
        | none =>
            rw [hro] at h
            cases h
        | some info =>
            rw [hro] at h
            dsimp only at h
            by_cases hab : (dx - ox).natAbs ≠ (dy - oy).natAbs
            · rw [if_pos hab] at h
              simp at h
            · rw [if_neg hab] at h
              by_cases hk : info.is_king = false
              · rw [if_pos hk] at h
                by_cases h1 : (dx - ox).natAbs = 1
                · rw [if_pos h1] at h
                  split_ifs at h <;> simp at h
                · rw [if_neg h1] at h
                  by_cases h2 : (dx - ox).natAbs = 2
                  · rw [if_pos h2] at h
                    cases hmid : s.board (oy + pyDir (dy - oy)) (ox + pyDir (dx - ox)) with
                    | none =>
                        rw [hmid] at h
                        simp at h
                    | some victim =>
                        rw [hmid] at h
                        dsimp only at h
                        cases hrv : s.robots victim with
                        | none =>
                            rw [hrv] at h
                            cases h
                        | some vinfo =>
                            rw [hrv] at h
                            dsimp only at h
                            split_ifs at h with hteam
                            · have hv : victim = v := by
                                simp only [Option.some.injEq, Prod.mk.injEq, true_and] at h
                                exact h
                              refine ⟨⟨oy + pyDir (dy - oy), ox + pyDir (dx - ox), ?_,
                                        by rw [← hv]; exact hmid⟩,
                                      ⟨vinfo, by rw [← hv]; exact hrv⟩⟩
                              rintro ⟨hy, -⟩
                              rcases pyDir_cases (dy - oy) with hp | hp <;> rw [hp] at hy <;> omega
                            · simp at h
                  · rw [if_neg h2] at h
                    simp at h
              · rw [if_neg hk] at h
                cases hscan : kingScan s info.team
                    (betweenPath oy ox (pyDir (dy - oy)) (pyDir (dx - ox)) (dx - ox).natAbs) none with
                | err =>
                    rw [hscan] at h
                    cases h
                | blocked =>
                    rw [hscan] at h
                    simp at h
                | ok w =>
                    rw [hscan] at h
                    cases w with
                    | none =>
                        dsimp only at h
                        split_ifs at h <;> simp at h
                    | some u =>
                        dsimp only at h
                        have hu : u = v := by
                          simp only [Option.some.injEq, Prod.mk.injEq, true_and] at h
                          exact h
                        subst hu
                        obtain ⟨⟨c, hcmem, hcb⟩, fi, hfi⟩ := kingScan_ok_mem s info.team u _ hscan
                        refine ⟨⟨c.1, c.2, ?_, hcb⟩, fi, hfi⟩
                        rintro ⟨hy, -⟩
                        unfold betweenPath at hcmem
                        rcases List.mem_map.mp hcmem with ⟨i, -, hceq⟩
                        rw [← hceq] at hy
                        dsimp only at hy
                        rcases pyDir_cases (dy - oy) with hp | hp <;> rw [hp] at hy <;> omega

/-- C6: the cell-to-piece mapping stays bijective onto the alive robots —
`capture_piece` preserves the invariant while marking the captured robot
dead and clearing it from every cell, and `execute_move` applied to a
validated move preserves the invariant. -/
theorem C6_board_piece_bijection :
    (∀ (s : SupState) (n : String), BoardInv s → ∀ t, capture_piece s n = some t →
        BoardInv t ∧ (∃ i, t.robots n = some i ∧ i.alive = false) ∧
        ∀ y x, t.board y x ≠ some n) ∧
    (∀ (s : SupState) (ox oy dx dy : Int) (cap : Option String), BoardInv s →
        validate_move s (ox, oy) (dx, dy) = some (true, cap) →
        ∀ t, execute_move s (ox, oy) (dx, dy) cap = some t → BoardInv t) := by
  constructor
  · exact fun s n hInv t hc => capture_inv s n hInv t hc
  · intro s ox oy dx dy cap hInv hval t hexec
    have hdest : s.board dy dx = none := by
      by_cases hdx : (s.board dy dx).isSome = true
      · unfold validate_move at hval
        dsimp only at hval
        rw [if_pos hdx] at hval
        simp at hval
      · exact Option.not_isSome_iff_eq_none.mp hdx
    unfold execute_move at hexec
    dsimp only at hexec
    cases hbo : s.board oy ox with
    | none =>
        rw [hbo] at hexec
        cases hexec
    | some piece =>
        rw [hbo] at hexec
        dsimp only at hexec
        cases hro : s.robots piece with
        | none =>
            rw [hro] at hexec
            cases hexec
        | some info =>
            rw [hro] at hexec
            dsimp only at hexec
            cases cap with
            | none =>
                dsimp only at hexec
                rw [if_neg (by simp)] at hexec
                injection hexec with ht
                refine move_preserves_inv s t ox oy dx dy piece hInv hbo hdest ?_ ?_
                · rw [← ht]
                · rw [← ht]
            | some v =>
                obtain ⟨⟨yv, xv, hvne, hvb⟩, vi, hvr⟩ :=
                  validate_true_some_facts s ox oy dx dy v hval
                have hvnepiece : v ≠ piece := by
                  intro hh
                  subst hh
                  obtain ⟨i, hi, ha⟩ := hInv.1 oy ox v hbo
                  obtain ⟨c0, hc0, huniq⟩ := hInv.2 v i hi ha
                  have h1 := huniq (yv, xv) hvb
                  have h2 := huniq (oy, ox) hbo
                  have h5 : (yv, xv) = ((oy, ox) : Int × Int) := h1.trans h2.symm
                  rw [Prod.mk.injEq] at h5
                  exact hvne h5
                have hcap : capture_piece s v = some
                    { s with
                      robots := fun nm =>
                        if nm = v then some { vi with alive := false } else s.robots nm,
                      board := fun y x =>
                        if s.board y x = some v then none else s.board y x } := by
                  unfold capture_piece
                  rw [hvr]
                have hs1 := capture_inv s v hInv _ hcap
                dsimp only at hexec
                unfold capture_piece at hexec
                rw [hvr] at hexec
                dsimp only at hexec
                have hS1o : (if s.board oy ox = some v then none else s.board oy ox) = some piece := by
                  rw [hbo]
                  rw [if_neg (fun hh => hvnepiece (Option.some.inj hh).symm)]
                have hS1d : (if s.board dy dx = some v then none else s.board dy dx) = none := by
                  rw [hdest]
                  rw [if_neg (by simp)]
                split at hexec
                · split at hexec
                  · cases hexec
                  · injection hexec with ht
                    refine move_preserves_inv
                      { s with
                        robots := fun nm =>
                          if nm = v then some { vi with alive := false } else s.robots nm,
                        board := fun y x =>
                          if s.board y x = some v then none else s.board y x }
                      t ox oy dx dy piece hs1.1 hS1o hS1d ?_ ?_
                    · rw [← ht]
                    · rw [← ht]
                · injection hexec with ht
                  refine move_preserves_inv
                    { s with
                      robots := fun nm =>
                        if nm = v then some { vi with alive := false } else s.robots nm,
                      board := fun y x =>
                        if s.board y x = some v then none else s.board y x }
                    t ox oy dx dy piece hs1.1 hS1o hS1d ?_ ?_
                  · rw [← ht]
                  · rw [← ht]

/-- The witness state satisfies the invariant. -/
lemma boardInv_supC6 : BoardInv supC6 := by
  constructor
  · intro y x p hp
    dsimp only [supC6] at hp
    split_ifs at hp with h1 h2
    · injection hp with hp'
      subst hp'
      exact ⟨⟨"WHITE", false, true⟩, by decide, rfl⟩
    · injection hp with hp'
      subst hp'
      exact ⟨⟨"BLACK", false, true⟩, by decide, rfl⟩
  · intro p i hpi hal
    dsimp only [supC6] at hpi
    split_ifs at hpi with h1 h2
    · subst h1
      refine ⟨(2, 2), by decide, ?_⟩
      rintro ⟨cy, cx⟩ hcc
      dsimp only [supC6] at hcc
      split_ifs at hcc with g1 g2
      · rw [g1.1, g1.2]
      · exact absurd (Option.some.inj hcc) (by decide)
    · subst h2
      refine ⟨(3, 3), by decide, ?_⟩
      rintro ⟨cy, cx⟩ hcc
      dsimp only [supC6] at hcc
      split_ifs at hcc with g1 g2
      · exact absurd (Option.some.inj hcc) (by decide)
      · rw [g2.1, g2.2]

theorem C6_board_piece_bijection_witness :
    validate_move supC6 (2, 2) (4, 4) = some (true, some "B_01") ∧
    (execute_move supC6 (2, 2) (4, 4) (some "B_01")).isSome = true ∧
    BoardInvOpt (execute_move supC6 (2, 2) (4, 4) (some "B_01")) :=
  ⟨by decide, by decide,
   fun t ht =>
     C6_board_piece_bijection.2 supC6 2 2 4 4 (some "B_01") boardInv_supC6 (by decide) t ht⟩
